import Mathlib

/-!
Verification of `convert_icinga_whisper_to_influx`.

Shallow embedding of the two scripts in `src/`:
  * `convert_icinga_whisper_to_influx.py` (the "live-write" variant), and
  * `csv_based_whisper_to_lp.py` (the "CSV/export" variant).

Python strings are modelled as `List Char`.  Python `\s` in the sanitizer
regex and `\S` in the performance-data regex are modelled over the ASCII
whitespace class (space, tab, newline, carriage return, vertical tab, form
feed); all inputs relevant to the claims are ASCII.  Sample values (Python
floats) are modelled by a type parameter `α` together with a rendering
function `α → List Char` standing for Python's `f"{value}"` formatting;
the conversion logic never inspects a value beyond its presence.
-/

namespace WhisperConvert

/-- ASCII whitespace, modelling Python's `\s` character class. -/
def pySpace (c : Char) : Bool :=
  c = ' ' || c = '\t' || c = '\n' || c = '\r' || c = '\x0b' || c = '\x0c'

/-- The character class `[\\/\s\.]` of the sanitizer regex in both scripts
(`convert_icinga_whisper_to_influx.py` line 32, `csv_based_whisper_to_lp.py`
line 26): backslash, forward slash, whitespace, dot. -/
def sanChar (c : Char) : Bool :=
  c = '\\' || c = '/' || pySpace c || c = '.'

/-- One left-to-right pass of `re.sub(r'[\\/\s\.]+', '_', name)`: the Boolean
state records whether the previous character was part of a run of
sanitizer-class characters (a run is replaced by a single `'_'`). -/
def collapseAux : Bool → List Char → List Char
  | _, [] => []
  | inRun, c :: rest =>
    if sanChar c then
      if inRun then collapseAux true rest
      else '_' :: collapseAux true rest
    else c :: collapseAux false rest

/-- `re.sub(r'[\\/\s\.]+', '_', name)`: every maximal run of
backslash / slash / whitespace / dot becomes a single underscore. -/
def collapseRuns (s : List Char) : List Char := collapseAux false s

/-- Python `str.replace('::', r)`: non-overlapping left-to-right replacement
of the two-character sequence `::` by the character `r`. -/
def replaceCC (r : Char) : List Char → List Char
  | [] => []
  | [c] => [c]
  | c :: d :: rest =>
    if c = ':' ∧ d = ':' then r :: replaceCC r rest
    else c :: replaceCC r (d :: rest)

/-- `sanitize_name(name, allow_slash)` — identical in both scripts
(`convert_icinga_whisper_to_influx.py` lines 31-37,
`csv_based_whisper_to_lp.py` lines 20-31): collapse runs of
`[\\/\s\.]` to `'_'`, then replace `::` by `'/'` (if `allow_slash`)
or `'_'`. -/
def sanitize_name (name : List Char) (allow_slash : Bool) : List Char :=
  let n := collapseRuns name
  if allow_slash then replaceCC '/' n else replaceCC '_' n

/-- One step of POSIX `os.path.join`: appending one component `b` to the
path built so far (`posixpath.join`): an absolute component resets the
path; otherwise a `'/'` separator is inserted unless the path so far is
empty or already ends in `'/'`. -/
def joinOne (path b : List Char) : List Char :=
  if b.head? = some '/' then b
  else if path = [] ∨ path.getLast? = some '/' then path ++ b
  else path ++ '/' :: b

/-- `os.path.join(base, *rest)`. -/
def joinPath (base : List Char) (rest : List (List Char)) : List Char :=
  rest.foldl joinOne base

/-- `construct_wsp_file_path` of the live-write variant
(`convert_icinga_whisper_to_influx.py` lines 40-55): the type segment is
`"host"` for the `HOSTCHECK` sentinel service and `"services"` otherwise;
`checkcommand` is used verbatim, the metric is sanitized with
`allow_slash=True`. -/
def construct_wsp_file_path
    (base_path hostname servicename checkcommand metric : List Char) : List Char :=
  let wtype := if servicename = "HOSTCHECK".data then "host".data else "services".data
  joinPath base_path
    [ sanitize_name hostname false
    , wtype
    , sanitize_name servicename false
    , checkcommand
    , "perfdata".data
    , sanitize_name metric true
    , "value.wsp".data ]

/-- `BASE_PATH` of the CSV variant (`csv_based_whisper_to_lp.py` line 17). -/
def BASE_PATH : List Char := "/mig-perf-data/whisper/icinga2".data

/-- `construct_wsp_file_path` of the CSV variant
(`csv_based_whisper_to_lp.py` lines 49-63): always uses the `"services"`
segment, never `"host"`. -/
def csv_construct_wsp_file_path
    (hostname servicename checkcommand metric : List Char) : List Char :=
  joinPath BASE_PATH
    [ sanitize_name hostname false
    , "services".data
    , sanitize_name servicename false
    , checkcommand
    , "perfdata".data
    , sanitize_name metric true
    , "value.wsp".data ]

/-! ## Performance-data parsing (`csv_based_whisper_to_lp.py` lines 33-47)

`re.findall(r"((?:'[^']*'|\S+))=(\S+)", perf_data)` with Python's
backtracking semantics: at each scan position the first alternative
`'[^']*'` (a single-quoted key) is tried first; if the quoted key, the
literal `=`, or a non-empty greedy `\S+` value fails to follow, the engine
falls back to the second alternative `\S+` for the key, trying the longest
key first, i.e. splitting the non-space token at its last `=` that still
leaves a non-empty value. -/

/-- Split a token at its rightmost `'='` that has a non-empty remainder:
`some (g1, g2)` with `t = g1 ++ '=' :: g2` and `g2 ≠ []`, preferring the
rightmost such `'='` (the greedy `\S+` key backtracks from the right). -/
def splitLastEqAny : List Char → Option (List Char × List Char)
  | [] => none
  | c :: rest =>
    match splitLastEqAny rest with
    | some (g1, g2) => some (c :: g1, g2)
    | none => if c = '=' ∧ rest ≠ [] then some ([], rest) else none

/-- One attempted match of `((?:'[^']*'|\S+))=(\S+)` at the head of `s`:
`some (key, value, rest)` where `rest` is the input after the match. -/
def tryMatch (s : List Char) : Option (List Char × List Char × List Char) :=
  let alt2 : Option (List Char × List Char × List Char) :=
    let t := s.takeWhile (fun c => !pySpace c)
    match splitLastEqAny t with
    | some (g1, g2) => if g1 ≠ [] then some (g1, g2, s.drop t.length) else none
    | none => none
  match s with
  | '\'' :: rest =>
    let body := rest.takeWhile (fun c => c != '\'')
    match rest.drop body.length with
    | '\'' :: '=' :: rest2 =>
      let v := rest2.takeWhile (fun c => !pySpace c)
      if v ≠ [] then some ('\'' :: (body ++ ['\'']), v, rest2.drop v.length)
      else alt2
    | _ => alt2
  | _ => alt2

/-- `re.findall`: scan left to right, emitting each match's groups and
resuming after the match; advance one character where no match starts.
The fuel argument is the length of the remaining input. -/
def findallAux : Nat → List Char → List (List Char × List Char)
  | 0, _ => []
  | fuel + 1, s =>
    match tryMatch s with
    | some (g1, g2, rest) => (g1, g2) :: findallAux fuel rest
    | none =>
      match s with
      | [] => []
      | _ :: tail => findallAux fuel tail

/-- `re.findall(pattern, perf_data)` for the key/value pattern above. -/
def findall (s : List Char) : List (List Char × List Char) :=
  findallAux s.length s

/-- Python `label.strip("'")`: remove all leading and trailing single
quotes. -/
def stripQuotes (l : List Char) : List Char :=
  ((l.dropWhile (fun c => c = '\'')).reverse.dropWhile (fun c => c = '\'')).reverse

/-- Python `dict` assignment `d[k] = v`: update in place if the key exists,
else append, preserving insertion order. -/
def dictInsert (k v : List Char) : List (List Char × List Char) → List (List Char × List Char)
  | [] => [(k, v)]
  | (k', v') :: rest =>
    if k' = k then (k, v) :: rest else (k', v') :: dictInsert k v rest

/-- `parse_performance_data(perf_data)` (`csv_based_whisper_to_lp.py`
lines 33-47): a dict mapping each matched key, stripped of surrounding
quotes, to its sanitized (`allow_slash=True`) form. -/
def parse_performance_data (perf_data : List Char) : List (List Char × List Char) :=
  (findall perf_data).foldl
    (fun d m =>
      let original_label := stripQuotes m.1
      dictInsert original_label (sanitize_name original_label true) d)
    []

/-! ## The legacy-store fetch result

`whisper.fetch(path, from, until)` returns `None` or a pair
`(timeInfo, values)` with `timeInfo = (start, end, step)`; it may also
raise.  A call is modelled by a value of
`Except (List Char) (Option (TimeInfo × List (Option α)))`: `.error msg`
for a raised exception, `.ok none` for `None`, `.ok (some (ti, values))`
for data.  `end` is a Lean keyword, so the middle component is named
`stop`. -/

/-- The `(start, end, step)` triple returned by `whisper.fetch`. -/
structure TimeInfo where
  start : Nat
  stop : Nat
  step : Nat
deriving DecidableEq, Repr

/-- A point passed to `influx_client.write_points`
(`convert_icinga_whisper_to_influx.py` lines 78-93).  The source renders
`time` as the ISO-8601 string `datetime.utcfromtimestamp(t)`; the instant
it denotes is the Unix timestamp `t` recorded here. -/
structure LivePoint (α : Type) where
  measurement : List Char
  hostname : List Char
  metric : List Char
  service : List Char
  time : Nat
  value : α
  unit : Option (List Char)
deriving DecidableEq, Repr

/-- Log entries of the live-write conversion function, carrying the data
interpolated into the corresponding `logging` call. -/
inductive LiveLog (α : Type) where
  | noData (path : List Char)
  | simulatedWrite (point : LivePoint α)
  | written (point : LivePoint α)
  | processed (path : List Char) (written skipped : Nat) (simulate : Bool)
  | readError (path msg : List Char)
deriving DecidableEq, Repr

/-- Result of one call of the live-write conversion function: the points
passed to `write_points`, in order, and the log entries. -/
structure LiveResult (α : Type) where
  writes : List (LivePoint α)
  logs : List (LiveLog α)
deriving DecidableEq, Repr

/-- The `for value in values` loop of `convert_and_write_to_influx`
(`convert_icinga_whisper_to_influx.py` lines 71-103).  State `(t, written,
skipped)` mirrors the source; note that `t += step` and
`points_written += 1` follow the write and are **skipped** by the
`continue` taken for a `None` value.  Returns (written points, logs, written,
skipped). -/
def liveLoop {α : Type} (hostname servicename checkcommand metric : List Char)
    (unit : Option (List Char)) (step : Nat) (simulate debug : Bool) :
    Nat → Nat → Nat → List (Option α) →
      List (LivePoint α) × List (LiveLog α) × Nat × Nat
  | _, written, skipped, [] => ([], [], written, skipped)
  | t, written, skipped, none :: values =>
    liveLoop hostname servicename checkcommand metric unit step simulate debug
      t written (skipped + 1) values
  | t, written, skipped, some value :: values =>
    let point : LivePoint α :=
      ⟨checkcommand, hostname, metric, servicename, t, value, unit⟩
    let rest :=
      liveLoop hostname servicename checkcommand metric unit step simulate debug
        (t + step) (written + 1) skipped values
    if simulate then
      (rest.1, (if debug then [LiveLog.simulatedWrite point] else []) ++ rest.2.1, rest.2.2)
    else
      (point :: rest.1, (if debug then [LiveLog.written point] else []) ++ rest.2.1, rest.2.2)

/-- `convert_and_write_to_influx` (`convert_icinga_whisper_to_influx.py`
lines 59-108).  The `try` block covers the whole body: a raised fetch
exception is logged with the path and message and the function returns
(no write, no propagation). -/
def convert_and_write_to_influx {α : Type}
    (fetched : Except (List Char) (Option (TimeInfo × List (Option α))))
    (wsp_path hostname servicename checkcommand original_metric_name : List Char)
    (simulate debug : Bool) (unit : Option (List Char)) : LiveResult α :=
  match fetched with
  | Except.error e => ⟨[], [LiveLog.readError wsp_path e]⟩
  | Except.ok none => ⟨[], [LiveLog.noData wsp_path]⟩
  | Except.ok (some (ti, values)) =>
    let r := liveLoop hostname servicename checkcommand original_metric_name unit
      ti.step simulate debug ti.start 0 0 values
    ⟨r.1, r.2.1 ++ [LiveLog.processed wsp_path r.2.2.1 r.2.2.2 simulate]⟩

/-! ## CSV/export variant: conversion, export file, main loop
(`csv_based_whisper_to_lp.py`) -/

/-- Log entries of the CSV variant, carrying the data interpolated into
the corresponding `logging` call. -/
inductive CsvLog where
  | noData (path : List Char)
  | readError (path msg : List Char)
  | skipExisting (lp_path : List Char)
  | saved (wsp_path lp_path : List Char)
  | missingWsp (path orig sanitized : List Char)
  | rowProcessed (hostname servicename checkcommand : List Char)
      (metric_info : List (List Char))
deriving DecidableEq, Repr

/-- One line of the export blob (`csv_based_whisper_to_lp.py` lines 82-85):
`f"{checkcommand},hostname={hostname},metric={original_metric_name},service={servicename} value={value} {timestamp}\n"`.
`render` stands for Python's formatting of the float value. -/
def lineProtocolLine {α : Type} (render : α → List Char)
    (checkcommand hostname original_metric_name servicename : List Char)
    (value : α) (timestamp : Nat) : List Char :=
  checkcommand ++ ",hostname=".data ++ hostname ++ ",metric=".data
    ++ original_metric_name ++ ",service=".data ++ servicename
    ++ " value=".data ++ render value ++ " ".data
    ++ (Nat.repr timestamp).data ++ "\n".data

/-- The `(timestamp, value)` pairs the loop at lines 78-86 keeps: those of
the zipped sequence whose value is not `None`. -/
def csvKeptPairs {α : Type} : List (Nat × Option α) → List (Nat × α)
  | [] => []
  | (_, none) :: rest => csvKeptPairs rest
  | (t, some v) :: rest => (t, v) :: csvKeptPairs rest

/-- The `for timestamp, value in zip(data_points[0], values)` loop
(`csv_based_whisper_to_lp.py` lines 78-86), producing the list of emitted
lines.  Note `data_points[0]` is the `(start, end, step)` descriptor
tuple, so `zip` pairs the values with `start`, `end` and `step` used as
timestamps. -/
def csvLineLoop {α : Type} (render : α → List Char)
    (checkcommand hostname original_metric_name servicename : List Char) :
    List (Nat × Option α) → List (List Char)
  | [] => []
  | (_, none) :: rest =>
    csvLineLoop render checkcommand hostname original_metric_name servicename rest
  | (t, some v) :: rest =>
    lineProtocolLine render checkcommand hostname original_metric_name servicename v t
      :: csvLineLoop render checkcommand hostname original_metric_name servicename rest

/-- `convert_to_line_protocol` (`csv_based_whisper_to_lp.py` lines 65-92):
returns `''.join(line_protocol_data)` on success, `None` when the store
returned no data or raised (the `try` covers the whole body; the raised
message is logged with the path). -/
def convert_to_line_protocol {α : Type} (render : α → List Char)
    (fetched : Except (List Char) (Option (TimeInfo × List (Option α))))
    (wsp_path hostname servicename checkcommand original_metric_name : List Char) :
    Option (List Char) × List CsvLog :=
  match fetched with
  | Except.error e => (none, [CsvLog.readError wsp_path e])
  | Except.ok none => (none, [CsvLog.noData wsp_path])
  | Except.ok (some (ti, values)) =>
    let pairs := List.zip [ti.start, ti.stop, ti.step] values
    ((csvLineLoop render checkcommand hostname original_metric_name servicename pairs).flatten
      |> some,
     [])

/-- POSIX `os.path.dirname`. -/
def dirname (p : List Char) : List Char :=
  let head := (p.reverse.dropWhile (fun c => c != '/')).reverse
  if head ≠ [] ∧ ¬ head.all (fun c => c = '/') then
    (head.reverse.dropWhile (fun c => c = '/')).reverse
  else head

/-- `save_line_protocol` (`csv_based_whisper_to_lp.py` lines 94-107).  The
filesystem is modelled by the pre-existing-file predicate `isfile` plus
the association list `written` of files created earlier in the run; gzip
compression round-trips, so a file's recorded content is its decompressed
text.  If `value.lp.gz` already exists the function logs and returns
without writing. -/
def save_line_protocol (isfile : List Char → Bool)
    (written : List (List Char × List Char))
    (wsp_path line_protocol_data : List Char) :
    List (List Char × List Char) × List CsvLog × List Char :=
  let lp_gz_path := joinPath (dirname wsp_path) ["value.lp.gz".data]
  if isfile lp_gz_path || written.any (fun w => w.1 = lp_gz_path) then
    (written, [CsvLog.skipExisting lp_gz_path], lp_gz_path)
  else
    ((lp_gz_path, line_protocol_data) :: written,
     [CsvLog.saved wsp_path lp_gz_path], lp_gz_path)

/-- The body of the per-metric loop of the CSV main program
(`csv_based_whisper_to_lp.py` lines 128-140) for one
`(original, sanitized)` metric pair: returns the updated written-file
list, the entry appended to `metric_info` (if any), and the log entries.
`fetch` models `whisper.fetch` as a function of the path.  Python's
`if line_protocol_data:` treats both `None` and the empty string as
false. -/
def processMetric {α : Type} (isfile : List Char → Bool)
    (fetch : List Char → Except (List Char) (Option (TimeInfo × List (Option α))))
    (render : α → List Char)
    (written : List (List Char × List Char))
    (hostname servicename checkcommand original_metric_name sanitized_metric_name : List Char) :
    List (List Char × List Char) × Option (List Char) × List CsvLog :=
  let wsp_file_path :=
    csv_construct_wsp_file_path hostname servicename checkcommand original_metric_name
  if isfile wsp_file_path then
    let conv := convert_to_line_protocol render (fetch wsp_file_path) wsp_file_path
      hostname servicename checkcommand original_metric_name
    match conv.1 with
    | some line_protocol_data =>
      if line_protocol_data ≠ [] then
        let sv := save_line_protocol isfile written wsp_file_path line_protocol_data
        (sv.1, some (original_metric_name ++ " (converted)".data), conv.2 ++ sv.2.1)
      else (written, none, conv.2)
    | none => (written, none, conv.2)
  else
    (written, some (original_metric_name ++ " (missing)".data),
     [CsvLog.missingWsp wsp_file_path original_metric_name sanitized_metric_name])

/-- Fold of `processMetric` over the parsed metrics, accumulating the
written files, the `metric_info` list and the logs. -/
def processMetrics {α : Type} (isfile : List Char → Bool)
    (fetch : List Char → Except (List Char) (Option (TimeInfo × List (Option α))))
    (render : α → List Char)
    (hostname servicename checkcommand : List Char) :
    List (List Char × List Char) →
      List (List Char × List Char) × List (List Char) × List CsvLog →
      List (List Char × List Char) × List (List Char) × List CsvLog
  | [], acc => acc
  | (orig, sanitized) :: rest, (written, infos, logs) =>
    let r := processMetric isfile fetch render written
      hostname servicename checkcommand orig sanitized
    processMetrics isfile fetch render hostname servicename checkcommand rest
      (r.1, infos ++ (match r.2.1 with | some i => [i] | none => []), logs ++ r.2.2)

/-- One iteration of `for row in reader:` (`csv_based_whisper_to_lp.py`
lines 124-145).  The loop body contains no `sys.exit` call, so the step
always returns `Except.ok`; the error type mirrors the process exit code
used elsewhere in the script. -/
def csvRowStep {α : Type} (isfile : List Char → Bool)
    (fetch : List Char → Except (List Char) (Option (TimeInfo × List (Option α))))
    (render : α → List Char)
    (written : List (List Char × List Char))
    (hostname servicename checkcommand perf_data : List Char) :
    Except Nat (List (List Char × List Char) × List (List Char) × List CsvLog) :=
  let metrics := parse_performance_data perf_data
  let r := processMetrics isfile fetch render hostname servicename checkcommand
    metrics (written, [], [])
  Except.ok
    (r.1, r.2.1,
     r.2.2 ++ [CsvLog.rowProcessed hostname servicename checkcommand r.2.1])

/-! ## Live-write variant: main loop body
(`convert_icinga_whisper_to_influx.py` lines 162-191) -/

/-- Outcome of one iteration of the live main loop when it does not
abort. -/
inductive LiveRecOutcome (α : Type) where
  | converted (r : LiveResult α)
  | missingFile (path : List Char)
deriving DecidableEq, Repr

/-- One iteration of the live main loop
(`convert_icinga_whisper_to_influx.py` lines 162-191): default an empty
service to the `HOSTCHECK` sentinel, then `sys.exit(1)` (modelled as
`Except.error 1`) if hostname or metric is missing; otherwise derive the
path and convert if the file exists. -/
def liveRecordStep {α : Type} (isfile : List Char → Bool)
    (fetch : List Char → Except (List Char) (Option (TimeInfo × List (Option α))))
    (base_path hostname servicename measurement_name metric : List Char)
    (simulate debug : Bool) (unit : Option (List Char)) :
    Except Nat (LiveRecOutcome α) :=
  let servicename := if servicename = [] then "HOSTCHECK".data else servicename
  if hostname = [] ∨ metric = [] then Except.error 1
  else
    let wsp_file_path :=
      construct_wsp_file_path base_path hostname servicename measurement_name metric
    if isfile wsp_file_path then
      Except.ok (LiveRecOutcome.converted
        (convert_and_write_to_influx (fetch wsp_file_path) wsp_file_path hostname
          servicename measurement_name metric simulate debug unit))
    else
      Except.ok (LiveRecOutcome.missingFile wsp_file_path)

/-- `true` when the optional character (a head or last character) is not in
the sanitizer character class; `none` (empty string) counts as true. -/
def notSanOpt : Option Char → Bool
  | none => true
  | some c => !sanChar c

/-- The run-state of `collapseAux` after consuming a list: whether the
last consumed character was in the sanitizer class. -/
def runState : Bool → List Char → Bool
  | b, [] => b
  | _, c :: rest => runState (sanChar c) rest

/-- Whether the list contains the two-character sequence `::`. -/
def hasCC : List Char → Bool
  | [] => false
  | [_] => false
  | c :: d :: rest => (c == ':' && d == ':') || hasCC (d :: rest)

/-- A path segment that behaves plainly under `os.path.join`: non-empty,
not absolute, no trailing slash. -/
abbrev goodSeg (s : List Char) : Prop :=
  s ≠ [] ∧ s.head? ≠ some '/' ∧ s.getLast? ≠ some '/'

/-! ### Sanity evaluations of the embedded definitions -/

example : sanitize_name "a::b".data true = "a/b".data := by decide
example : sanitize_name "a::b".data false = "a_b".data := by decide
example : sanitize_name "m 1".data true = "m_1".data := by decide
example : sanitize_name (sanitize_name "a::b".data true) true = "a_b".data := by decide

example :
    construct_wsp_file_path "base".data "h1".data "HOSTCHECK".data "cmd".data "m1".data
      = "base/h1/host/HOSTCHECK/cmd/perfdata/m1/value.wsp".data := by decide

example :
    csv_construct_wsp_file_path "h1".data "HOSTCHECK".data "cmd".data "m1".data
      = "/mig-perf-data/whisper/icinga2/h1/services/HOSTCHECK/cmd/perfdata/m1/value.wsp".data := by
  decide

example :
    parse_performance_data "'m 1'=5;m2=10".data = [("m 1".data, "m_1".data)] := by decide
example :
    parse_performance_data "'m 1'=5 m2=10".data
      = [("m 1".data, "m_1".data), ("m2".data, "m2".data)] := by decide

example : dirname "a/b/value.wsp".data = "a/b".data := by decide
example : dirname "/c".data = "/".data := by decide
example : dirname "c".data = "".data := by decide

/-! ## Claims -/

/-- C1: the claim says both variants reconstruct the i-th sample's
timestamp as `start + i*step`, so the fetch result `(start=100, end=400,
step=100)` with values `[1.0, None, 3.0, None]` yields exactly
`{100:1.0, 300:3.0}`.  The code does neither: the live variant only
advances `t` after a written point (the `continue` for a gap skips
`t += step`), emitting `{100:1.0, 200:3.0}`; the CSV variant zips the
`(start, end, step)` descriptor itself with the values, emitting lines
timestamped `100` and `100`.  This theorem evaluates both variants at the
claim's input and records that neither produces the claimed samples. -/
theorem claim_C1_sample_timestamps_code_bug :
    (convert_and_write_to_influx (α := List Char)
        (Except.ok (some (⟨100, 400, 100⟩,
          [some "1.0".data, none, some "3.0".data, none])))
        "p".data "h".data "s".data "cmd".data "m".data false false none).writes.map
        (fun p => (p.time, p.value))
      = [(100, "1.0".data), (200, "3.0".data)]
    ∧ (convert_to_line_protocol (α := List Char) id
        (Except.ok (some (⟨100, 400, 100⟩,
          [some "1.0".data, none, some "3.0".data, none])))
        "p".data "h".data "s".data "cmd".data "m".data).1
      = some ("cmd,hostname=h,metric=m,service=s value=1.0 100\ncmd,hostname=h,metric=m,service=s value=3.0 100\n".data)
    ∧ csvKeptPairs
        (List.zip [100, 400, 100] [some "1.0".data, none, some "3.0".data, none])
      = [(100, "1.0".data), (100, "3.0".data)]
    ∧ (convert_and_write_to_influx (α := List Char)
        (Except.ok (some (⟨100, 400, 100⟩,
          [some "1.0".data, none, some "3.0".data, none])))
        "p".data "h".data "s".data "cmd".data "m".data false false none).writes.map
        (fun p => (p.time, p.value))
      ≠ [(100, "1.0".data), (300, "3.0".data)]
    ∧ csvKeptPairs
        (List.zip [100, 400, 100] [some "1.0".data, none, some "3.0".data, none])
      ≠ [(100, "1.0".data), (300, "3.0".data)] := by
  refine ⟨by decide, by decide, by decide, by decide, by decide⟩

/-- C2: the claim says every emitted record's timestamp lies in the
requested window `[START_TIMESTAMP, end_timestamp)`.  The CSV variant
violates it: because line 78 zips the `(start, end, step)` descriptor
with the values, the `step` value itself (here `100`) becomes a record
timestamp.  With a requested window `[1000, 2000)` and a fetch result
`(start=1200, end=1500, step=100)` with three non-gap values, the third
emitted line is timestamped `100`, which is outside the window. -/
theorem claim_C2_window_invariant_code_bug :
    (convert_to_line_protocol (α := List Char) id
        (Except.ok (some (⟨1200, 1500, 100⟩,
          [some "1.0".data, some "2.0".data, some "3.0".data])))
        "p".data "h".data "s".data "cmd".data "m".data).1
      = some ("cmd,hostname=h,metric=m,service=s value=1.0 1200\ncmd,hostname=h,metric=m,service=s value=2.0 1500\ncmd,hostname=h,metric=m,service=s value=3.0 100\n".data)
    ∧ (csvKeptPairs
        (List.zip [1200, 1500, 100]
          [some "1.0".data, some "2.0".data, some "3.0".data])).map Prod.fst
      = [1200, 1500, 100]
    ∧ ¬ (1000 ≤ 100 ∧ 100 < 2000) := by
  refine ⟨by decide, by decide, by decide⟩

/-- C5 counterexample: the claim says parsing `"'m 1'=5;m2=10"` yields
exactly two candidate metrics; the greedy `\S+` value of the regex
consumes `5;m2=10`, so the code yields exactly one. -/
theorem claim_C5_counterexample :
    (parse_performance_data "'m 1'=5;m2=10".data).length = 1
    ∧ (parse_performance_data "'m 1'=5;m2=10".data).length ≠ 2 := by
  refine ⟨by decide, by decide⟩

/-- C5 amended: parsing yields one candidate per whitespace-separated
`key=value` token, a key may be single-quote-wrapped to admit embedded
spaces, and the greedy value match consumes any non-whitespace tail; so
`"'m 1'=5;m2=10"` yields exactly the one candidate `"m 1" ↦ "m_1"`
(the single regex match takes `5;m2=10` as the value), while the
whitespace-separated `"'m 1'=5 m2=10"` yields the two candidates
`"m 1" ↦ "m_1"` and `"m2" ↦ "m2"`. -/
theorem claim_C5_amended_parse :
    findall "'m 1'=5;m2=10".data = [("'m 1'".data, "5;m2=10".data)]
    ∧ parse_performance_data "'m 1'=5;m2=10".data = [("m 1".data, "m_1".data)]
    ∧ parse_performance_data "'m 1'=5 m2=10".data
        = [("m 1".data, "m_1".data), ("m2".data, "m2".data)]
    ∧ sanitize_name "m 1".data true = "m_1".data := by
  refine ⟨by decide, by decide, by decide, by decide⟩

/-- C7: the claim says (a) a pre-existing `value.lp.gz` makes
`save_line_protocol` return without writing, and (b) the export blob has
exactly one line per non-gap sample.  Part (a) holds, and is evaluated
here on a concrete filesystem.  Part (b) fails: zipping the
`(start, end, step)` descriptor with the values caps the output at three
lines, so five non-gap values produce a blob with only three lines
(timestamped `start`, `end` and `step`). -/
theorem claim_C7_export_code_bug :
    save_line_protocol (fun p => p == "a/b/value.lp.gz".data) []
        "a/b/value.wsp".data "x".data
      = ([], [CsvLog.skipExisting "a/b/value.lp.gz".data], "a/b/value.lp.gz".data)
    ∧ (convert_to_line_protocol (α := List Char) id
        (Except.ok (some (⟨100, 600, 100⟩,
          [some "1.0".data, some "2.0".data, some "3.0".data,
           some "4.0".data, some "5.0".data])))
        "a/b/value.wsp".data "h".data "s".data "cmd".data "m".data).1
      = some ("cmd,hostname=h,metric=m,service=s value=1.0 100\ncmd,hostname=h,metric=m,service=s value=2.0 600\ncmd,hostname=h,metric=m,service=s value=3.0 100\n".data)
    ∧ (("cmd,hostname=h,metric=m,service=s value=1.0 100\ncmd,hostname=h,metric=m,service=s value=2.0 600\ncmd,hostname=h,metric=m,service=s value=3.0 100\n".data).filter
        (fun c => c = '\n')).length = 3
    ∧ (([some "1.0".data, some "2.0".data, some "3.0".data,
         some "4.0".data, some "5.0".data].filter Option.isSome).length = 5)
    ∧ (3 : Nat) ≠ 5 := by
  refine ⟨by decide, by decide, by decide, by decide, by decide⟩

/-- C8: any exception raised by `whisper.fetch` is caught inside the
conversion function of either variant, logged together with the path and
the exception message, and the function returns normally with nothing
written — the return type of both embedded functions is an ordinary
result (no abort), so the run continues with the identity skipped. -/
theorem claim_C8_read_failure_contained {α : Type} (render : α → List Char)
    (msg wsp_path hostname servicename checkcommand metric : List Char)
    (simulate debug : Bool) (unit : Option (List Char)) :
    convert_and_write_to_influx (α := α) (Except.error msg) wsp_path hostname
        servicename checkcommand metric simulate debug unit
      = ⟨[], [LiveLog.readError wsp_path msg]⟩
    ∧ convert_to_line_protocol render (Except.error msg) wsp_path hostname
        servicename checkcommand metric
      = (none, [CsvLog.readError wsp_path msg]) :=
  ⟨rfl, rfl⟩

/-- With `simulate = true`, the per-value loop of the live variant never
produces a point for `write_points`, whatever the values. -/
theorem liveLoop_simulate_writes_nil {α : Type}
    (hostname servicename checkcommand metric : List Char)
    (unit : Option (List Char)) (step : Nat) (debug : Bool) :
    ∀ (values : List (Option α)) (t written skipped : Nat),
      (liveLoop hostname servicename checkcommand metric unit step true debug
        t written skipped values).1 = [] := by
  intro values
  induction values with
  | nil => intro t written skipped; rfl
  | cons v rest ih =>
    intro t written skipped
    cases v with
    | none => simpa [liveLoop] using ih t written (skipped + 1)
    | some value => simpa [liveLoop] using ih (t + step) (written + 1) skipped

/-- C9: with the simulate flag set, the live-write variant issues no
database write (`write_points`) for any fetch result: the list of points
passed to the write API is empty in every case (exception, no data, or
any sequence of values). -/
theorem claim_C9_simulate_never_writes {α : Type}
    (fetched : Except (List Char) (Option (TimeInfo × List (Option α))))
    (wsp_path hostname servicename checkcommand metric : List Char)
    (debug : Bool) (unit : Option (List Char)) :
    (convert_and_write_to_influx fetched wsp_path hostname servicename
      checkcommand metric true debug unit).writes = [] := by
  cases fetched with
  | error e => rfl
  | ok d =>
    cases d with
    | none => rfl
    | some p =>
      obtain ⟨ti, values⟩ := p
      simpa [convert_and_write_to_influx] using
        liveLoop_simulate_writes_nil hostname servicename checkcommand metric unit
          ti.step debug values ti.start 0 0

/-- C6: a record lacking a hostname or a metric (Python falsy, i.e. the
empty string) makes the live-write main loop call `sys.exit(1)` — the
whole run aborts, the record is not skipped — while the CSV main loop
contains no exit call at all: its row step always returns a result, so a
row with missing fields is processed (its metrics logged and skipped as
missing) and the run continues. -/
theorem claim_C6_missing_tags {α : Type} (isfile : List Char → Bool)
    (fetch : List Char → Except (List Char) (Option (TimeInfo × List (Option α))))
    (base_path hostname servicename measurement_name metric : List Char)
    (simulate debug : Bool) (unit : Option (List Char))
    (isfile' : List Char → Bool)
    (fetch' : List Char → Except (List Char) (Option (TimeInfo × List (Option α))))
    (render : α → List Char) (written : List (List Char × List Char))
    (sv cc perf_data : List Char)
    (h : hostname = [] ∨ metric = []) :
    liveRecordStep (α := α) isfile fetch base_path hostname servicename
        measurement_name metric simulate debug unit = Except.error 1
    ∧ ∃ r, csvRowStep (α := α) isfile' fetch' render written hostname sv cc
        perf_data = Except.ok r := by
  constructor
  · simp only [liveRecordStep, if_pos h]
  · exact ⟨_, rfl⟩

/-- Witness for C6 at a concrete record with an empty hostname. -/
theorem claim_C6_missing_tags_witness :
    (("" : String).data = ([] : List Char) ∨ "m".data = ([] : List Char))
    ∧ (liveRecordStep (α := List Char) (fun _ => true)
        (fun _ => Except.ok none) "base".data "".data "svc".data "cmd".data
        "m".data false false none = Except.error 1
      ∧ ∃ r, csvRowStep (α := List Char) (fun _ => true)
          (fun _ => Except.ok none) id [] "".data "svc".data "cmd".data
          "m=1".data = Except.ok r) :=
  ⟨Or.inl rfl,
   claim_C6_missing_tags (fun _ => true) (fun _ => Except.ok none) "base".data
     "".data "svc".data "cmd".data "m".data false false none (fun _ => true)
     (fun _ => Except.ok none) id [] "svc".data "cmd".data "m=1".data
     (Or.inl rfl)⟩

/-- Every pair produced by zipping anything with an all-`None` value list
has a `None` second component, so the CSV line loop keeps nothing. -/
theorem csvLineLoop_all_none {α : Type} (render : α → List Char)
    (checkcommand hostname metric servicename : List Char) :
    ∀ (pairs : List (Nat × Option α)), (∀ p ∈ pairs, p.2 = none) →
      csvLineLoop render checkcommand hostname metric servicename pairs = [] := by
  intro pairs
  induction pairs with
  | nil => intro _; rfl
  | cons p rest ih =>
    intro hall
    obtain ⟨t, v⟩ := p
    have hv : v = none := hall (t, v) (List.mem_cons_self _ _)
    subst hv
    exact (by simpa [csvLineLoop] using ih (fun q hq => hall q (List.mem_cons_of_mem _ hq)))

/-- C10: when every value returned by the store is a gap, the CSV variant
joins an empty list of lines, so `convert_to_line_protocol` returns the
empty string; since Python's `if line_protocol_data:` treats the empty
string as false, the per-metric step saves no `value.lp.gz` file and
appends no `"(converted)"` entry to the row summary — no completed-work
marker is left, so a later run would attempt the identity again. -/
theorem claim_C10_all_gaps_no_marker {α : Type} (render : α → List Char)
    (ti : TimeInfo) (values : List (Option α)) (isfile : List Char → Bool)
    (fetch : List Char → Except (List Char) (Option (TimeInfo × List (Option α))))
    (written : List (List Char × List Char))
    (hostname servicename checkcommand orig sanitized : List Char)
    (hall : ∀ v ∈ values, v = none)
    (hfetch : fetch (csv_construct_wsp_file_path hostname servicename checkcommand orig)
      = Except.ok (some (ti, values)))
    (hfile : isfile (csv_construct_wsp_file_path hostname servicename checkcommand orig)
      = true) :
    convert_to_line_protocol render
        (Except.ok (some (ti, values)))
        (csv_construct_wsp_file_path hostname servicename checkcommand orig)
        hostname servicename checkcommand orig = (some [], [])
    ∧ processMetric isfile fetch render written hostname servicename checkcommand
        orig sanitized = (written, none, []) := by
  have hkeep : csvLineLoop render checkcommand hostname orig servicename
      (List.zip [ti.start, ti.stop, ti.step] values) = [] := by
    refine csvLineLoop_all_none render checkcommand hostname orig servicename _ ?_
    intro p hp
    exact hall p.2 (List.of_mem_zip hp).2
  have hconv : convert_to_line_protocol render
      (Except.ok (some (ti, values)))
      (csv_construct_wsp_file_path hostname servicename checkcommand orig)
      hostname servicename checkcommand orig = (some [], []) := by
    simp [convert_to_line_protocol, hkeep]
  refine ⟨hconv, ?_⟩
  simp [processMetric, hfile, hfetch, hconv]

/-- Witness for C10 at a concrete all-gap fetch result. -/
theorem claim_C10_all_gaps_no_marker_witness :
    ((∀ v ∈ ([none, none] : List (Option (List Char))), v = none)
      ∧ (fun _ : List Char =>
          (Except.ok (some (TimeInfo.mk 100 300 100,
              ([none, none] : List (Option (List Char))))) :
            Except (List Char) (Option (TimeInfo × List (Option (List Char))))))
          (csv_construct_wsp_file_path "h".data "s".data "c".data "m".data)
        = Except.ok (some (TimeInfo.mk 100 300 100, [none, none]))
      ∧ (fun _ : List Char => true)
          (csv_construct_wsp_file_path "h".data "s".data "c".data "m".data) = true)
    ∧ (convert_to_line_protocol id
        (Except.ok (some (TimeInfo.mk 100 300 100,
          ([none, none] : List (Option (List Char))))))
        (csv_construct_wsp_file_path "h".data "s".data "c".data "m".data)
        "h".data "s".data "c".data "m".data = (some [], [])
      ∧ processMetric (fun _ => true)
          (fun _ => Except.ok (some (TimeInfo.mk 100 300 100, [none, none])))
          id [] "h".data "s".data "c".data "m".data "m".data
        = ([], none, [])) :=
  ⟨⟨by decide, rfl, rfl⟩,
   claim_C10_all_gaps_no_marker id (TimeInfo.mk 100 300 100) [none, none]
     (fun _ => true)
     (fun _ => Except.ok (some (TimeInfo.mk 100 300 100, [none, none])))
     [] "h".data "s".data "c".data "m".data "m".data
     (by decide) rfl rfl⟩

/-! ## C3: algebra of `sanitize_name` -/

theorem collapseAux_append (u : List Char) :
    ∀ (b : Bool) (t : List Char),
      collapseAux b (u ++ t) = collapseAux b u ++ collapseAux (runState b u) t := by
  induction u with
  | nil => intro b t; simp [collapseAux, runState]
  | cons c u ih =>
    intro b t
    cases hc : sanChar c with
    | true => cases b <;> simp [collapseAux, runState, hc, ih]
    | false => simp [collapseAux, runState, hc, ih]

theorem collapseAux_run (r : List Char) :
    r ≠ [] → (∀ c ∈ r, sanChar c = true) →
    ∀ (b : Bool) (t : List Char),
      collapseAux b (r ++ t) = (if b then [] else ['_']) ++ collapseAux true t := by
  induction r with
  | nil => intro h; cases h rfl
  | cons c r ih =>
    intro _ hall b t
    have hc : sanChar c = true := hall c (List.mem_cons_self _ _)
    have hstep1 : ∀ l, collapseAux true (c :: l) = collapseAux true l := by
      intro l; simp [collapseAux, hc]
    have hstep2 : ∀ l, collapseAux false (c :: l) = '_' :: collapseAux true l := by
      intro l; simp [collapseAux, hc]
    cases r with
    | nil => cases b <;> simp [collapseAux, hc]
    | cons d r' =>
      have hd := ih (by simp) (fun e he => hall e (List.mem_cons_of_mem _ he)) true t
      cases b with
      | true =>
        simp only [List.cons_append] at hd ⊢
        rw [hstep1, hd]
      | false =>
        simp only [List.cons_append] at hd ⊢
        rw [hstep2, hd]; simp

theorem collapseAux_true_of_head (v : List Char)
    (hv : notSanOpt v.head? = true) :
    collapseAux true v = collapseAux false v := by
  cases v with
  | nil => rfl
  | cons c rest =>
    have hc : sanChar c = false := by
      simpa [notSanOpt] using hv
    simp [collapseAux, hc]

theorem runState_false_of_last :
    ∀ (u : List Char), notSanOpt u.getLast? = true →
      ∀ b, u ≠ [] → runState b u = false := by
  intro u
  induction u with
  | nil => intro _ b h; cases h rfl
  | cons c u ih =>
    intro hu b _
    cases u with
    | nil =>
      have hc : sanChar c = false := by simpa [notSanOpt] using hu
      simp [runState, hc]
    | cons d u'' =>
      have hlast : notSanOpt ((d :: u'').getLast?) = true := by
        simpa [List.getLast?_cons_cons] using hu
      simpa [runState] using ih hlast (sanChar c) (by simp)

theorem collapseAux_no_san :
    ∀ (s : List Char) (b : Bool) (c : Char), c ∈ collapseAux b s → sanChar c = false := by
  intro s
  induction s with
  | nil => intro b c hc; simp [collapseAux] at hc
  | cons d rest ih =>
    intro b c hc
    cases hd : sanChar d with
    | true =>
      cases b with
      | true => exact ih true c (by simpa [collapseAux, hd] using hc)
      | false =>
        rcases (by simpa [collapseAux, hd] using hc :
            c = '_' ∨ c ∈ collapseAux true rest) with h | h
        · subst h; decide
        · exact ih true c h
    | false =>
      rcases (by simpa [collapseAux, hd] using hc :
          c = d ∨ c ∈ collapseAux false rest) with h | h
      · subst h; exact hd
      · exact ih false c h

theorem collapseAux_id_of_no_san (s : List Char)
    (h : ∀ c ∈ s, sanChar c = false) : collapseAux false s = s := by
  induction s with
  | nil => rfl
  | cons c rest ih =>
    have hc : sanChar c = false := h c (List.mem_cons_self _ _)
    simp [collapseAux, hc, ih (fun d hd => h d (List.mem_cons_of_mem _ hd))]

theorem replaceCC_mem (r : Char) (s : List Char) :
    ∀ c ∈ replaceCC r s, c = r ∨ c ∈ s := by
  induction s using replaceCC.induct r with
  | case1 => intro c hc; simp [replaceCC] at hc
  | case2 d => intro c hc; simp [replaceCC] at hc; simp [hc]
  | case3 c d rest h ih =>
    intro x hx
    rcases (by simpa [replaceCC, h] using hx : x = r ∨ x ∈ replaceCC r rest) with h1 | h1
    · exact Or.inl h1
    · rcases ih x h1 with h2 | h2
      · exact Or.inl h2
      · exact Or.inr (List.mem_cons_of_mem _ (List.mem_cons_of_mem _ h2))
  | case4 c d rest h ih =>
    intro x hx
    rcases (by simpa [replaceCC, h] using hx :
        x = c ∨ x ∈ replaceCC r (d :: rest)) with h1 | h1
    · subst h1; exact Or.inr (List.mem_cons_self _ _)
    · rcases ih x h1 with h2 | h2
      · exact Or.inl h2
      · exact Or.inr (List.mem_cons_of_mem _ h2)

theorem replaceCC_cons_of_ne (r d : Char) (hd : d ≠ ':') (l : List Char) :
    replaceCC r (d :: l) = d :: replaceCC r l := by
  cases l with
  | nil => rfl
  | cons e l' => simp [replaceCC, hd]

theorem hasCC_cons_of_ne (c : Char) (hc : c ≠ ':') (t : List Char) :
    hasCC (c :: t) = hasCC t := by
  cases t with
  | nil => rfl
  | cons d t' => simp [hasCC, hc]

theorem hasCC_replaceCC (r : Char) (hr : r ≠ ':') (s : List Char) :
    hasCC (replaceCC r s) = false := by
  induction s using replaceCC.induct r with
  | case1 => rfl
  | case2 d => rfl
  | case3 c d rest h ih =>
    rw [show replaceCC r (c :: d :: rest) = r :: replaceCC r rest by
      simp [replaceCC, h]]
    rw [hasCC_cons_of_ne r hr]
    exact ih
  | case4 c d rest h ih =>
    rw [show replaceCC r (c :: d :: rest) = c :: replaceCC r (d :: rest) by
      simp [replaceCC, h]]
    by_cases hc : c = ':'
    · have hd : d ≠ ':' := fun hdc => h ⟨hc, hdc⟩
      rw [replaceCC_cons_of_ne r d hd rest]
      have ih' : hasCC (d :: replaceCC r rest) = false := by
        rw [replaceCC_cons_of_ne r d hd rest] at ih; exact ih
      simp [hasCC, hd, ih']
    · rw [hasCC_cons_of_ne c hc]
      exact ih

theorem replaceCC_id_of_no_hasCC (r : Char) (s : List Char)
    (h : hasCC s = false) : replaceCC r s = s := by
  induction s using replaceCC.induct r with
  | case1 => rfl
  | case2 d => rfl
  | case3 c d rest hcd ih =>
    obtain ⟨hc, hd⟩ := hcd
    subst hc; subst hd
    simp [hasCC] at h
  | case4 c d rest hcd ih =>
    have h' : hasCC (d :: rest) = false := by
      cases hcc : hasCC (d :: rest) with
      | false => rfl
      | true => simp [hasCC, hcc] at h
    simp [replaceCC, hcd, ih h']

/-- C3 counterexample: `sanitize_name` is **not** idempotent for
`allow_slash = true`: `"a::b"` sanitizes to `"a/b"`, whose slash a second
application collapses to an underscore, giving `"a_b"`. -/
theorem claim_C3_idempotence_counterexample :
    sanitize_name (sanitize_name "a::b".data true) true ≠ sanitize_name "a::b".data true
    ∧ sanitize_name "a::b".data true = "a/b".data
    ∧ sanitize_name (sanitize_name "a::b".data true) true = "a_b".data := by
  refine ⟨by decide, by decide, by decide⟩

/-- C3 (amended): for every name and both values of `allow_slash`, the
substitution stage of `sanitize_name` replaces each maximal run of
backslash / forward-slash / whitespace / dot characters with exactly one
underscore (stated for an arbitrary decomposition `u ++ r ++ v` where `r`
is such a maximal run), and `sanitize_name` with `allow_slash = false` is
idempotent.  (Idempotence for `allow_slash = true` fails; see the
counterexample.) -/
theorem claim_C3_sanitize_runs_and_idempotence :
    (∀ (u r v : List Char) (allow_slash : Bool),
      r ≠ [] → (∀ c ∈ r, sanChar c = true) →
      notSanOpt u.getLast? = true → notSanOpt v.head? = true →
      collapseRuns (u ++ r ++ v) = collapseRuns u ++ '_' :: collapseRuns v
      ∧ sanitize_name (u ++ r ++ v) allow_slash
        = (if allow_slash then
              replaceCC '/' (collapseRuns u ++ '_' :: collapseRuns v)
            else
              replaceCC '_' (collapseRuns u ++ '_' :: collapseRuns v)))
    ∧ ∀ (name : List Char),
        sanitize_name (sanitize_name name false) false = sanitize_name name false := by
  constructor
  · intro u r v allow_slash hr hall hu hv
    have hcore : collapseRuns (u ++ r ++ v) = collapseRuns u ++ '_' :: collapseRuns v := by
      have h1 : collapseAux false (u ++ (r ++ v))
          = collapseAux false u ++ collapseAux (runState false u) (r ++ v) :=
        collapseAux_append u false (r ++ v)
      have h2 : runState false u = false := by
        cases hu' : u with
        | nil => rfl
        | cons c u'' =>
          rw [← hu']
          exact runState_false_of_last u hu false (by simp [hu'])
      have h3 : collapseAux false (r ++ v) = ['_'] ++ collapseAux true v := by
        simpa using collapseAux_run r hr hall false v
      have h4 : collapseAux true v = collapseAux false v :=
        collapseAux_true_of_head v hv
      calc collapseRuns (u ++ r ++ v)
          = collapseAux false (u ++ (r ++ v)) := by
            simp [collapseRuns, List.append_assoc]
        _ = collapseAux false u ++ collapseAux (runState false u) (r ++ v) := h1
        _ = collapseRuns u ++ '_' :: collapseRuns v := by
            rw [h2, h3, h4]; simp [collapseRuns]
    have hcore' : collapseRuns (u ++ (r ++ v)) = collapseRuns u ++ '_' :: collapseRuns v := by
      rw [← List.append_assoc]; exact hcore
    refine ⟨hcore, ?_⟩
    cases allow_slash <;> simp [sanitize_name, hcore, hcore']
  · intro name
    have hm : ∀ c ∈ sanitize_name name false, sanChar c = false := by
      intro c hc
      have hc' : c ∈ replaceCC '_' (collapseAux false name) := by
        simpa [sanitize_name, collapseRuns] using hc
      rcases replaceCC_mem '_' (collapseAux false name) c hc' with h | h
      · subst h; decide
      · exact collapseAux_no_san name false c h
    have hnoCC : hasCC (sanitize_name name false) = false := by
      have : sanitize_name name false = replaceCC '_' (collapseAux false name) := by
        simp [sanitize_name, collapseRuns]
      rw [this]
      exact hasCC_replaceCC '_' (by decide) (collapseAux false name)
    calc sanitize_name (sanitize_name name false) false
        = replaceCC '_' (collapseAux false (sanitize_name name false)) := by
          simp [sanitize_name, collapseRuns]
      _ = replaceCC '_' (sanitize_name name false) := by
          rw [collapseAux_id_of_no_san _ hm]
      _ = sanitize_name name false := replaceCC_id_of_no_hasCC '_' _ hnoCC

/-- Witness for C3 at a concrete run decomposition and a concrete
idempotence input. -/
theorem claim_C3_witness :
    (("  ".data ≠ ([] : List Char))
      ∧ (∀ c ∈ "  ".data, sanChar c = true)
      ∧ notSanOpt ("a".data).getLast? = true
      ∧ notSanOpt ("b".data).head? = true)
    ∧ (collapseRuns ("a".data ++ "  ".data ++ "b".data)
        = collapseRuns "a".data ++ '_' :: collapseRuns "b".data
      ∧ sanitize_name ("a".data ++ "  ".data ++ "b".data) true
        = replaceCC '/' (collapseRuns "a".data ++ '_' :: collapseRuns "b".data))
    ∧ sanitize_name (sanitize_name "x y::z".data false) false
        = sanitize_name "x y::z".data false := by
  refine ⟨⟨by decide, by decide, by decide, by decide⟩, ?_, ?_⟩
  · have h := claim_C3_sanitize_runs_and_idempotence.1 "a".data "  ".data "b".data true
      (by decide) (by decide) (by decide) (by decide)
    simpa using h
  · exact claim_C3_sanitize_runs_and_idempotence.2 "x y::z".data

/-! ## C4: shape of the derived path -/

theorem getLast?_append_right (l₁ : List Char) :
    ∀ (l₂ : List Char), l₂ ≠ [] → (l₁ ++ l₂).getLast? = l₂.getLast? := by
  induction l₁ with
  | nil => intro l₂ _; rfl
  | cons c l₁ ih =>
    intro l₂ hl₂
    cases hl : l₁ ++ l₂ with
    | nil =>
      exact absurd (List.append_eq_nil.mp hl).2 hl₂
    | cons d t =>
      calc ((c :: l₁) ++ l₂).getLast? = (c :: d :: t).getLast? := by rw [List.cons_append, hl]
        _ = (d :: t).getLast? := List.getLast?_cons_cons
        _ = (l₁ ++ l₂).getLast? := by rw [hl]
        _ = l₂.getLast? := ih l₂ hl₂

theorem joinPath_eq_slashes (segs : List (List Char)) :
    ∀ (base : List Char), base ≠ [] → base.getLast? ≠ some '/' →
      (∀ s ∈ segs, goodSeg s) →
      joinPath base segs = base ++ (segs.map (fun s => '/' :: s)).flatten := by
  induction segs with
  | nil => intro base _ _ _; simp [joinPath]
  | cons s rest ih =>
    intro base hb hbl hall
    obtain ⟨hs0, hs1, hs2⟩ := hall s (List.mem_cons_self _ _)
    have hj : joinOne base s = base ++ '/' :: s := by
      simp [joinOne, hs1, hb, hbl]
    have hb' : base ++ '/' :: s ≠ [] := by simp
    have hbl' : (base ++ '/' :: s).getLast? ≠ some '/' := by
      rw [getLast?_append_right base ('/' :: s) (by simp)]
      cases hscase : s with
      | nil => exact absurd hscase hs0
      | cons d t =>
        rw [List.getLast?_cons_cons]
        rw [hscase] at hs2
        exact hs2
    have hrest := ih (base ++ '/' :: s) hb' hbl'
      (fun x hx => hall x (List.mem_cons_of_mem _ hx))
    calc joinPath base (s :: rest)
        = joinPath (joinOne base s) rest := rfl
      _ = joinPath (base ++ '/' :: s) rest := by rw [hj]
      _ = (base ++ '/' :: s) ++ (rest.map (fun x => '/' :: x)).flatten := hrest
      _ = base ++ ((s :: rest).map (fun x => '/' :: x)).flatten := by
          simp [List.append_assoc]

/-- C4: the derived path is
`base_path / sanitize(hostname) / segment_type / sanitize(servicename) /
checkcommand (verbatim) / "perfdata" / sanitize(metric, allow_slash=true) /
"value.wsp"`, where the live variant picks `"host"` for the `HOSTCHECK`
sentinel and `"services"` otherwise, and the CSV variant always picks
`"services"`; stated for components that join plainly (non-empty, no
leading or trailing slash), together with the two concrete examples of
the claim. -/
theorem claim_C4_wsp_path_shape :
    (∀ (base_path hostname servicename checkcommand metric : List Char),
      base_path ≠ [] → base_path.getLast? ≠ some '/' →
      goodSeg (sanitize_name hostname false) →
      goodSeg (sanitize_name servicename false) →
      goodSeg checkcommand → goodSeg (sanitize_name metric true) →
      construct_wsp_file_path base_path hostname servicename checkcommand metric
        = base_path ++
            ([ sanitize_name hostname false
             , (if servicename = "HOSTCHECK".data then "host".data else "services".data)
             , sanitize_name servicename false
             , checkcommand
             , "perfdata".data
             , sanitize_name metric true
             , "value.wsp".data ].map (fun s => '/' :: s)).flatten
      ∧ csv_construct_wsp_file_path hostname servicename checkcommand metric
        = BASE_PATH ++
            ([ sanitize_name hostname false
             , "services".data
             , sanitize_name servicename false
             , checkcommand
             , "perfdata".data
             , sanitize_name metric true
             , "value.wsp".data ].map (fun s => '/' :: s)).flatten)
    ∧ construct_wsp_file_path "base".data "h1".data "HOSTCHECK".data "cmd".data "m1".data
        = "base/h1/host/HOSTCHECK/cmd/perfdata/m1/value.wsp".data
    ∧ csv_construct_wsp_file_path "h1".data "HOSTCHECK".data "cmd".data "m1".data
        = "/mig-perf-data/whisper/icinga2/h1/services/HOSTCHECK/cmd/perfdata/m1/value.wsp".data := by
  refine ⟨?_, by decide, by decide⟩
  intro base_path hostname servicename checkcommand metric hb hbl hh hs hc hm
  constructor
  · refine joinPath_eq_slashes _ base_path hb hbl ?_
    intro x hx
    simp only [List.mem_cons, List.not_mem_nil, or_false] at hx
    rcases hx with h | h | h | h | h | h | h <;> subst h
    · exact hh
    · by_cases hsv : servicename = "HOSTCHECK".data
      · rw [if_pos hsv]; decide
      · rw [if_neg hsv]; decide
    · exact hs
    · exact hc
    · decide
    · exact hm
    · decide
  · refine joinPath_eq_slashes _ BASE_PATH (by decide) (by decide) ?_
    intro x hx
    simp only [List.mem_cons, List.not_mem_nil, or_false] at hx
    rcases hx with h | h | h | h | h | h | h <;> subst h
    · exact hh
    · decide
    · exact hs
    · exact hc
    · decide
    · exact hm
    · decide

/-- Witness for C4 at the concrete identity of the claim's example. -/
theorem claim_C4_witness :
    ("base".data ≠ ([] : List Char)
      ∧ ("base".data : List Char).getLast? ≠ some '/'
      ∧ goodSeg (sanitize_name "h1".data false)
      ∧ goodSeg (sanitize_name "HOSTCHECK".data false)
      ∧ goodSeg "cmd".data
      ∧ goodSeg (sanitize_name "m1".data true))
    ∧ (construct_wsp_file_path "base".data "h1".data "HOSTCHECK".data "cmd".data "m1".data
        = "base".data ++
            ([ sanitize_name "h1".data false
             , (if "HOSTCHECK".data = "HOSTCHECK".data then "host".data else "services".data)
             , sanitize_name "HOSTCHECK".data false
             , "cmd".data
             , "perfdata".data
             , sanitize_name "m1".data true
             , "value.wsp".data ].map (fun s => '/' :: s)).flatten
      ∧ csv_construct_wsp_file_path "h1".data "HOSTCHECK".data "cmd".data "m1".data
        = BASE_PATH ++
            ([ sanitize_name "h1".data false
             , "services".data
             , sanitize_name "HOSTCHECK".data false
             , "cmd".data
             , "perfdata".data
             , sanitize_name "m1".data true
             , "value.wsp".data ].map (fun s => '/' :: s)).flatten) :=
  ⟨⟨by decide, by decide, by decide, by decide, by decide, by decide⟩,
   claim_C4_wsp_path_shape.1 "base".data "h1".data "HOSTCHECK".data "cmd".data "m1".data
     (by decide) (by decide) (by decide) (by decide) (by decide) (by decide)⟩

end WhisperConvert
